import Mathlib

/-!
Verification of the altalias maubot plugin (src/altalias.py) against its
natural-language specification.

Shallow embedding notes:
* Alias strings are modelled as `List Char` (Python `str` indexing and
  slicing become list operations).
* `re.Pattern` objects are modelled by `RPattern`: the source pattern
  string together with the (opaque) fullmatch semantics as a boolean
  function on alias strings.
* `re.compile` is a parameter `compile : String → Option RPattern`
  (`none` models `re.error`); the theorems that need it assume only the
  Python guarantee that a compiled pattern's `.pattern` attribute is the
  source string.  `toyCompile` is a concrete instantiation used by the
  closed-form corollaries.
* Exceptions become `Except PyErr`; the wall-clock SIGALRM timeout of
  `timeout()` (altalias.py lines 47-54) is modelled by an oracle
  `fire : Option Nat`: `some k` means the alarm delivers `TimeoutError`
  just before the k-th `fullmatch` call of the evaluation loop completes
  (real time is not modelled; the oracle ranges over every possible
  firing point).  The `timeout` context manager has no `except` clause:
  it only clears the alarm in its `finally`, so a raised `TimeoutError`
  propagates to the caller — the embedding reflects exactly that.
* `self._rooms` (a Python dict) is an insertion-ordered association
  list with lookup `dictGet` and insert-or-replace `dictSet`.
-/

/-- Python exception classes that can escape the modelled code paths. -/
inductive PyErr
  | valueError
  | typeError
  | timeoutError
  | reError
deriving DecidableEq

/-- A compiled regular expression: its source string (`.pattern`) plus its
`fullmatch` semantics on alias strings. -/
structure RPattern where
  pattern : String
  fullmatch : List Char → Bool

/-- `RoomInfo` from altalias.py line 31: the per-room rule set. -/
structure RoomInfo where
  formats : List RPattern

/-- `CanonicalAliasStateEventContent` from mautrix: `canonical_alias`
defaults to Python `None` (hence `Option`), `alt_aliases` to `[]`. -/
structure CanonicalAliasStateEventContent where
  canonical_alias : Option (List Char)
  alt_aliases : List (List Char)
deriving DecidableEq

/-- Python `str.index(":")`: index of the first `':'`, `none` when absent
(models the `ValueError` branch). -/
def indexOfColon : List Char → Option Nat
  | [] => none
  | c :: cs => if c = ':' then some 0 else (indexOfColon cs).map (fun i => i + 1)

/-- `AltAliasBot._get_localpart` (altalias.py lines 95-107), with
`ValueError` messages as `Except.error` payloads and the Python slice
`alias[1:sep]` as `(al.drop 1).take (sep - 1)`. -/
def get_localpart (al : List Char) : Except String (List Char) :=
  if al.length = 0 then .error "Alias is empty"
  else if al.head? ≠ some '#' then .error "Aliases start with #"
  else
    match indexOfColon al with
    | none => .error "Alias must contain domain separator"
    | some sep =>
      if sep = al.length - 1 then .error "Alias must contain domain"
      else .ok ((al.drop 1).take (sep - 1))

/-- True when `get_localpart` raises (any of its `ValueError`s). -/
def extractionFails (al : List Char) : Bool :=
  match get_localpart al with
  | .error _ => true
  | .ok _ => false

/-- `AltAliasBot._localpart_matches` (altalias.py lines 109-117): parse
the alias and compare localparts; a `ValueError` is swallowed as `False`. -/
def localpart_matches (al : List Char) (equal_to : List Char) : Bool :=
  match get_localpart al with
  | .ok localpart => decide (equal_to = localpart)
  | .error _ => false

/-- Dict lookup `self._rooms[room_id]` on the insertion-ordered
association list (`none` models the `KeyError` branch). -/
def dictGet (rooms : List (String × RoomInfo)) (k : String) : Option RoomInfo :=
  (rooms.find? (fun x => decide (x.1 = k))).map (fun x => x.2)

/-- Dict assignment `self._rooms[room_id] = v`: replace in place when the
key is present (Python dicts keep insertion order), append otherwise. -/
def dictSet (rooms : List (String × RoomInfo)) (k : String) (v : RoomInfo) :
    List (String × RoomInfo) :=
  if rooms.any (fun x => decide (x.1 = k)) then
    rooms.map (fun x => if x.1 = k then (k, v) else x)
  else rooms ++ [(k, v)]

/-- The `for regex in cfg.formats` loop of `_is_allowed` (altalias.py
lines 170-172) run inside `with timeout(...)`.  `fire = some k` means the
SIGALRM alarm raises `TimeoutError` just before the k-th `fullmatch`
completes; the context manager re-raises it (its `finally` only clears
the alarm), so the loop is aborted with `Except.error`.  `fire = none`
(or a firing point the loop never reaches because it returned first)
leaves the loop's own result. -/
def evalFormats : List RPattern → List Char → Option Nat → Except PyErr Bool
  | [], _, _ => .ok false
  | p :: ps, al, none =>
    if p.fullmatch al then .ok true else evalFormats ps al none
  | _ :: _, _, some 0 => .error .timeoutError
  | p :: ps, al, some (k + 1) =>
    if p.fullmatch al then .ok true else evalFormats ps al (some k)

/-- The value `max(len(cfg.formats) * 0.5, 2)` passed to `timeout(...)`
at altalias.py line 169: the wall-clock deadline (in seconds) for rule
evaluation. -/
def timeoutArg (cfg : RoomInfo) : Rat :=
  max ((cfg.formats.length : Rat) * (1 / 2)) 2

/-- Modelled from the spec's words for comparison: the deadline has a
floor of 2 time-units and otherwise scales at 0.5 time-units per
configured pattern. -/
def specDeadline (n : Nat) : Rat :=
  max 2 ((n : Rat) * (1 / 2))

/-- `AltAliasBot._is_allowed` (altalias.py lines 157-173).  No rule set
(`KeyError`): localpart-equality fallback — note `_get_localpart` on the
candidate may raise `ValueError`, and `len(None)` on an absent canonical
alias raises `TypeError`, both uncaught here.  Rule set present: the
fullmatch loop under the alarm, whose `TimeoutError` also propagates. -/
def is_allowed (rooms : List (String × RoomInfo)) (room_id : String) (al : List Char)
    (existing : CanonicalAliasStateEventContent) (fire : Option Nat) : Except PyErr Bool :=
  match dictGet rooms room_id with
  | none =>
    match get_localpart al with
    | .error _ => .error .valueError
    | .ok localpart =>
      match existing.canonical_alias with
      | none => .error .typeError
      | some canonical =>
        if localpart_matches canonical localpart then .ok true
        else if existing.alt_aliases.any (fun a => localpart_matches a localpart) then .ok true
        else .ok false
  | some cfg => evalFormats cfg.formats al fire

/-- The pattern-compiling loop body of `on_external_config_update`
(altalias.py lines 72-76): append each pattern that compiles, drop (with
a logged warning) each one that raises `re.error`. -/
def loadFormats (compile : String → Option RPattern) : List String → List RPattern
  | [] => []
  | p :: ps =>
    match compile p with
    | some r => r :: loadFormats compile ps
    | none => loadFormats compile ps

/-- `AltAliasBot.on_external_config_update` (altalias.py lines 65-76),
restricted to the `rooms` key: rebuild the whole room map from the
configured format strings. -/
def on_external_config_update (compile : String → Option RPattern)
    (cfgRooms : List (String × List String)) : List (String × RoomInfo) :=
  cfgRooms.map (fun x => (x.1, RoomInfo.mk (loadFormats compile x.2)))

/-- `AltAliasBot.save_rooms` (altalias.py lines 82-88): serialize every
room's rule set back to its list of pattern source strings. -/
def save_rooms (rooms : List (String × RoomInfo)) : List (String × List String) :=
  rooms.map (fun x => (x.1, x.2.formats.map (fun r => r.pattern)))

/-- User-facing replies sent by the modelled command handlers. -/
inductive Reply
  | duplicate
  | notAllowed
  | added (regex : String)
deriving DecidableEq

/-- Result of `allow_format`: the room map after the call, the config
document written by `save_rooms` when it was reached (`none` when the
exception aborted before saving), and the reply or escaped exception. -/
structure AllowFormatResult where
  rooms : List (String × RoomInfo)
  saved : Option (List (String × List String))
  result : Except PyErr Reply

/-- `AltAliasBot.allow_format` (altalias.py lines 209-226) after the
permission check has passed.  Mirrors the source order: a missing room
entry is first replaced by an empty `RoomInfo` in `self._rooms`
(lines 220-222), and only then is `re.compile(regex)` attempted
(line 223) — `re.error` escapes with no reply and no save, leaving that
fresh empty entry behind. -/
def allow_format (compile : String → Option RPattern) (rooms : List (String × RoomInfo))
    (room_id : String) (regex : String) : AllowFormatResult :=
  match dictGet rooms room_id with
  | some room =>
    match compile regex with
    | none => ⟨rooms, none, .error .reError⟩
    | some p =>
      let rooms2 := dictSet rooms room_id (RoomInfo.mk (room.formats ++ [p]))
      ⟨rooms2, some (save_rooms rooms2), .ok (Reply.added regex)⟩
  | none =>
    let rooms1 := dictSet rooms room_id (RoomInfo.mk [])
    match compile regex with
    | none => ⟨rooms1, none, .error .reError⟩
    | some p =>
      let rooms2 := dictSet rooms1 room_id (RoomInfo.mk [p])
      ⟨rooms2, some (save_rooms rooms2), .ok (Reply.added regex)⟩

/-- `AltAliasBot._publish_aliases` (altalias.py lines 175-187): the
state-event content sent to the room is the input record with the new
alias appended (`content.alt_aliases.append(alias)`); nothing else of
the record is touched. -/
def publish_aliases (al : List Char) (content : CanonicalAliasStateEventContent) :
    CanonicalAliasStateEventContent :=
  CanonicalAliasStateEventContent.mk content.canonical_alias (content.alt_aliases ++ [al])

/-- Outcome of `add_alias`: the reply sent by the handler itself (if
any) and the state-event content sent to the room (if any). -/
structure AddAliasOutcome where
  reply : Option Reply
  sent : Option CanonicalAliasStateEventContent
deriving DecidableEq

/-- `AltAliasBot.add_alias` (altalias.py lines 192-207).  `valid` is the
outcome of `_validate_alias` and `existing` the outcome of
`_get_existing_aliases` (both reply themselves on failure, modelled as
`reply = none` here since those replies are not under test); then the
duplicate check, then `_is_allowed` (whose exceptions propagate), then
`_publish_aliases`. -/
def add_alias (rooms : List (String × RoomInfo)) (room_id : String) (al : List Char)
    (valid : Bool) (existing : Option CanonicalAliasStateEventContent)
    (fire : Option Nat) : Except PyErr AddAliasOutcome :=
  if valid = false then .ok (AddAliasOutcome.mk none none)
  else
    match existing with
    | none => .ok (AddAliasOutcome.mk none none)
    | some content =>
      if al ∈ content.alt_aliases then
        .ok (AddAliasOutcome.mk (some Reply.duplicate) none)
      else
        match is_allowed rooms room_id al content fire with
        | .error e => .error e
        | .ok true => .ok (AddAliasOutcome.mk none (some (publish_aliases al content)))
        | .ok false => .ok (AddAliasOutcome.mk (some Reply.notAllowed) none)

/-- A concrete stand-in for `re.compile` used by the closed-form
corollaries: a string compiles exactly when its parentheses are
balanced in count, and then matches only itself.  It satisfies the one
property of `re.compile` the general theorems assume: the compiled
object's `.pattern` is the source string. -/
def toyCompile (s : String) : Option RPattern :=
  if s.data.count '(' = s.data.count ')' then
    some (RPattern.mk s (fun t => decide (t = s.data)))
  else none

/-! ## Helper lemmas (shared) -/

theorem indexOfColon_append (loc : List Char) (rest : List Char) (hl : ':' ∉ loc) :
    indexOfColon (loc ++ ':' :: rest) = some loc.length := by
  induction loc with
  | nil => simp [indexOfColon]
  | cons c cs ih =>
    have hc : c ≠ ':' := fun h => hl (h ▸ List.mem_cons_self c cs)
    have hcs : ':' ∉ cs := fun h => hl (List.mem_cons_of_mem c h)
    simp [indexOfColon, hc, ih hcs]

theorem indexOfColon_eq_none (l : List Char) (hl : ':' ∉ l) :
    indexOfColon l = none := by
  induction l with
  | nil => rfl
  | cons c cs ih =>
    have hc : c ≠ ':' := fun h => hl (h ▸ List.mem_cons_self c cs)
    have hcs : ':' ∉ cs := fun h => hl (List.mem_cons_of_mem c h)
    simp [indexOfColon, hc, ih hcs]

theorem get_localpart_wf (loc dom : List Char) (hl : ':' ∉ loc) (hd : dom ≠ []) :
    get_localpart ('#' :: loc ++ ':' :: dom) = .ok loc := by
  rw [List.cons_append]
  have hidx : indexOfColon ('#' :: (loc ++ ':' :: dom)) = some (loc.length + 1) := by
    rw [indexOfColon, if_neg (by decide), indexOfColon_append loc dom hl]
    rfl
  have hdom : 0 < dom.length := List.length_pos.mpr hd
  have hlen : ('#' :: (loc ++ ':' :: dom)).length = loc.length + dom.length + 2 := by
    simp
    omega
  rw [get_localpart]
  rw [if_neg (by simp), if_neg (by simp)]
  simp only [hidx]
  rw [if_neg (by rw [hlen]; omega)]
  simp [List.take_left]

theorem get_localpart_no_colon (al : List Char) (hl : ':' ∉ al) :
    extractionFails al = true := by
  rw [extractionFails, get_localpart]
  by_cases h0 : al.length = 0
  · rw [if_pos h0]
  · rw [if_neg h0]
    by_cases hh : al.head? ≠ some '#'
    · rw [if_pos hh]
    · rw [if_neg hh, indexOfColon_eq_none al hl]

theorem get_localpart_no_hash (al : List Char) (hh : al.head? ≠ some '#') :
    extractionFails al = true := by
  rw [extractionFails, get_localpart]
  by_cases h0 : al.length = 0
  · rw [if_pos h0]
  · rw [if_neg h0, if_pos hh]

theorem get_localpart_empty_domain (loc : List Char) (hl : ':' ∉ loc) :
    get_localpart ('#' :: loc ++ [':']) = .error "Alias must contain domain" := by
  rw [List.cons_append]
  have hidx : indexOfColon ('#' :: (loc ++ [':'])) = some (loc.length + 1) := by
    have h0 := indexOfColon_append loc [] hl
    rw [indexOfColon, if_neg (by decide), h0]
    rfl
  have hlen : ('#' :: (loc ++ [':'])).length = loc.length + 2 := by
    simp
  rw [get_localpart, if_neg (by simp), if_neg (by simp)]
  simp only [hidx]
  rw [if_pos (by rw [hlen]; omega)]

theorem localpart_matches_true_iff (al lp : List Char) :
    localpart_matches al lp = true ↔ get_localpart al = .ok lp := by
  rw [localpart_matches]
  cases h : get_localpart al with
  | error e => simp [h]
  | ok l => simp [decide_eq_true_eq, eq_comm]

theorem evalFormats_no_fire (ps : List RPattern) (al : List Char) :
    evalFormats ps al none = .ok (ps.any (fun p => p.fullmatch al)) := by
  induction ps with
  | nil => rfl
  | cons p ps ih =>
    rw [evalFormats, List.any_cons]
    by_cases hp : p.fullmatch al = true
    · simp [hp]
    · simp [hp, ih]

theorem evalFormats_timeout (ps : List RPattern) (al : List Char) : ∀ k, k < ps.length →
    (∀ p ∈ ps.take k, p.fullmatch al = false) →
    evalFormats ps al (some k) = .error .timeoutError := by
  induction ps with
  | nil =>
    intro k hk _
    simp at hk
  | cons p ps ih =>
    intro k hk hnm
    cases k with
    | zero => rfl
    | succ k =>
      have hp : p.fullmatch al = false :=
        hnm p (by rw [List.take_succ_cons]; exact List.mem_cons_self p _)
      rw [evalFormats, if_neg (by simp [hp])]
      exact ih k (by simpa using hk)
        (fun q hq => hnm q (by rw [List.take_succ_cons]; exact List.mem_cons_of_mem p hq))

theorem evalFormats_first_match (l1 l2 : List RPattern) (p : RPattern) (al : List Char) :
    ∀ k, (∀ q ∈ l1, q.fullmatch al = false) → p.fullmatch al = true →
    l1.length < k → evalFormats (l1 ++ p :: l2) al (some k) = .ok true := by
  induction l1 with
  | nil =>
    intro k _ hp hk
    cases k with
    | zero => omega
    | succ k => simp [evalFormats, hp]
  | cons q l1 ih =>
    intro k h1 hp hk
    cases k with
    | zero => simp at hk
    | succ k =>
      have hq : q.fullmatch al = false := h1 q (List.mem_cons_self q l1)
      rw [List.cons_append, evalFormats, if_neg (by simp [hq])]
      exact ih k (fun r hr => h1 r (List.mem_cons_of_mem q hr)) hp (by simpa using hk)

theorem loadFormats_map_pattern (compile : String → Option RPattern)
    (hc : ∀ s p, compile s = some p → p.pattern = s) (ps : List String) :
    (loadFormats compile ps).map (fun r => r.pattern) =
      ps.filter (fun s => (compile s).isSome) := by
  induction ps with
  | nil => rfl
  | cons s ps ih =>
    cases h : compile s with
    | none => simp [loadFormats, h, ih, List.filter_cons]
    | some r =>
      have := hc s r h
      simp [loadFormats, h, ih, List.filter_cons, this]

theorem loadFormats_mem (compile : String → Option RPattern)
    (hc : ∀ s p, compile s = some p → p.pattern = s) (ps : List String)
    (r : RPattern) (hr : r ∈ loadFormats compile ps) :
    compile r.pattern = some r := by
  induction ps with
  | nil => simp [loadFormats] at hr
  | cons s ps ih =>
    cases h : compile s with
    | none =>
      rw [loadFormats, h] at hr
      exact ih hr
    | some q =>
      rw [loadFormats, h] at hr
      rcases List.mem_cons.mp hr with h1 | h1
      · subst h1
        rw [hc s r h]
        exact h
      · exact ih h1

theorem dictGet_cons (x : String × RoomInfo) (t : List (String × RoomInfo)) (k : String) :
    dictGet (x :: t) k = if x.1 = k then some x.2 else dictGet t k := by
  by_cases hx : x.1 = k
  · rw [dictGet, List.find?_cons_of_pos _ (by simp [hx]), if_pos hx]
    rfl
  · rw [dictGet, List.find?_cons_of_neg _ (by simp [hx]), if_neg hx, dictGet]

theorem dictGet_dictSet_self (rooms : List (String × RoomInfo)) (k : String) (v : RoomInfo) :
    dictGet (dictSet rooms k v) k = some v := by
  induction rooms with
  | nil =>
    rw [dictSet, if_neg (by simp), List.nil_append, dictGet_cons, if_pos rfl]
  | cons x t ih =>
    rw [dictSet]
    by_cases hany : ((x :: t).any fun y => decide (y.1 = k)) = true
    · rw [if_pos hany, List.map_cons]
      by_cases hx : x.1 = k
      · rw [if_pos hx, dictGet_cons, if_pos rfl]
      · rw [if_neg hx, dictGet_cons, if_neg hx]
        have ht : (t.any fun y => decide (y.1 = k)) = true := by
          simpa [List.any_cons, hx] using hany
        have hfold : t.map (fun y => if y.1 = k then (k, v) else y) = dictSet t k v := by
          rw [dictSet, if_pos ht]
        rw [hfold]
        exact ih
    · have hx : x.1 ≠ k := fun h => hany (by simp [List.any_cons, h])
      have ht : ¬((t.any fun y => decide (y.1 = k)) = true) :=
        fun h => hany (by simp [List.any_cons, h])
      rw [if_neg hany, List.cons_append, dictGet_cons, if_neg hx]
      have hfold : t ++ [(k, v)] = dictSet t k v := by
        rw [dictSet, if_neg ht]
      rw [hfold]
      exact ih

/-! ## Claim C1 -/

/-- Claim C1 counterexample: a room with one configured pattern, with
the alarm firing during evaluation of that pattern.  `_is_allowed` lets
the `TimeoutError` escape to its caller instead of returning the deny
value `false`: the `timeout` context manager (altalias.py lines 47-54)
has no `except` clause, its `finally` merely clears the alarm. -/
theorem claim1_counterexample :
    is_allowed [("!room", RoomInfo.mk [RPattern.mk "e" (fun _ => false)])] "!room"
        ('#' :: 'a' :: ':' :: 'b' :: []) (CanonicalAliasStateEventContent.mk none []) (some 0)
      = .error PyErr.timeoutError
    ∧ is_allowed [("!room", RoomInfo.mk [RPattern.mk "e" (fun _ => false)])] "!room"
        ('#' :: 'a' :: ':' :: 'b' :: []) (CanonicalAliasStateEventContent.mk none []) (some 0)
      ≠ .ok false := by
  constructor
  · rfl
  · intro h
    have h2 : (Except.error PyErr.timeoutError : Except PyErr Bool) = .ok false := h
    exact Except.noConfusion h2

/-- Claim C1 (amended): for every room with a configured rule set and
every candidate alias, if the wall-clock deadline elapses during rule
evaluation — i.e. before the loop has found a fully-matching pattern —
`_is_allowed` raises `TimeoutError` to its caller; it does not return
the deny value `false`. -/
theorem claim1_timeout_raises (rooms : List (String × RoomInfo)) (room_id : String)
    (al : List Char) (existing : CanonicalAliasStateEventContent) (cfg : RoomInfo) (k : Nat)
    (hroom : dictGet rooms room_id = some cfg) (hk : k < cfg.formats.length)
    (hnm : ∀ p ∈ cfg.formats.take k, p.fullmatch al = false) :
    is_allowed rooms room_id al existing (some k) = .error PyErr.timeoutError := by
  rw [is_allowed]
  simp only [hroom]
  exact evalFormats_timeout cfg.formats al k hk hnm

/-- Witness for `claim1_timeout_raises` at a concrete room and alias. -/
theorem claim1_witness :
    is_allowed [("!w1", RoomInfo.mk [RPattern.mk "e" (fun _ => false)])] "!w1"
        ('#' :: 'c' :: ':' :: 'd' :: []) (CanonicalAliasStateEventContent.mk none []) (some 0)
      = .error PyErr.timeoutError :=
  claim1_timeout_raises _ _ _ _ (RoomInfo.mk [RPattern.mk "e" (fun _ => false)]) 0
    rfl (by simp) (by simp)

/-! ## Claim C2 -/

/-- Claim C2 counterexample: the alias string "#:d" has an empty local
segment, so per the claim extraction should fail; `_get_localpart`
instead succeeds, returning the empty localpart (the code never checks
that the segment between '#' and ':' is non-empty). -/
theorem claim2_counterexample :
    get_localpart ('#' :: ':' :: 'd' :: []) = .ok []
    ∧ extractionFails ('#' :: ':' :: 'd' :: []) = false :=
  ⟨rfl, rfl⟩

/-- Claim C2 (amended): for every well-formed alias "#local:domain"
(local colon-free, domain non-empty) extraction returns local; and
extraction fails with an error for every string lacking a leading '#',
for every string lacking ':', and for every string whose domain segment
is empty.  (Unlike the original claim, an empty LOCAL segment is not
rejected: extraction then succeeds with the empty localpart.) -/
theorem claim2_localpart_extraction (loc dom al : List Char) :
    (':' ∉ loc → dom ≠ [] → get_localpart ('#' :: loc ++ ':' :: dom) = .ok loc)
    ∧ (al.head? ≠ some '#' → extractionFails al = true)
    ∧ (':' ∉ al → extractionFails al = true)
    ∧ (':' ∉ loc → get_localpart ('#' :: loc ++ [':']) = .error "Alias must contain domain") :=
  ⟨fun h1 h2 => get_localpart_wf loc dom h1 h2,
   fun h => get_localpart_no_hash al h,
   fun h => get_localpart_no_colon al h,
   fun h => get_localpart_empty_domain loc h⟩

/-- Witness for `claim2_localpart_extraction` on concrete strings. -/
theorem claim2_witness :
    get_localpart ('#' :: 'a' :: ':' :: 'b' :: []) = .ok ['a']
    ∧ extractionFails ('x' :: []) = true
    ∧ extractionFails ('#' :: 'a' :: []) = true
    ∧ get_localpart ('#' :: 'a' :: ':' :: []) = .error "Alias must contain domain" := by
  refine ⟨?_, ?_, ?_, ?_⟩
  · exact (claim2_localpart_extraction ['a'] ['b'] []).1 (by decide) (by decide)
  · exact (claim2_localpart_extraction [] [] ['x']).2.1 (by decide)
  · exact (claim2_localpart_extraction [] [] ['#', 'a']).2.2.1 (by decide)
  · exact (claim2_localpart_extraction ['a'] [] []).2.2.2 (by decide)

/-! ## Claim C3 -/

/-- Claim C3 (confirmed): for a room with no configured rules and a
syntactically well-formed candidate alias (with localpart `lp`), given
that the room's record has a canonical alias, `_is_allowed` returns
normally (no exception) and returns `true` iff `lp` equals — by exact,
case-sensitive comparison — the localpart of the existing canonical
alias or of some existing alternate alias (existing aliases that fail
to parse are skipped, never matched). -/
theorem claim3_no_rules_localpart (rooms : List (String × RoomInfo)) (room_id : String)
    (al : List Char) (existing : CanonicalAliasStateEventContent) (ca lp : List Char)
    (fire : Option Nat)
    (hroom : dictGet rooms room_id = none)
    (hca : existing.canonical_alias = some ca)
    (hlp : get_localpart al = .ok lp) :
    (is_allowed rooms room_id al existing fire = .ok true
      ∨ is_allowed rooms room_id al existing fire = .ok false)
    ∧ (is_allowed rooms room_id al existing fire = .ok true ↔
        get_localpart ca = .ok lp ∨ ∃ a ∈ existing.alt_aliases, get_localpart a = .ok lp) := by
  rw [is_allowed]
  simp only [hroom, hlp, hca]
  by_cases h1 : localpart_matches ca lp = true
  · rw [if_pos h1]
    exact ⟨Or.inl rfl, iff_of_true rfl (Or.inl ((localpart_matches_true_iff ca lp).mp h1))⟩
  · rw [if_neg h1]
    by_cases h2 : (existing.alt_aliases.any fun a => localpart_matches a lp) = true
    · rw [if_pos h2]
      refine ⟨Or.inl rfl, iff_of_true rfl (Or.inr ?_)⟩
      rcases List.any_eq_true.mp h2 with ⟨a, ha, hm⟩
      exact ⟨a, ha, (localpart_matches_true_iff a lp).mp hm⟩
    · rw [if_neg h2]
      refine ⟨Or.inr rfl, iff_of_false (by intro h; simp at h) ?_⟩
      rintro (hc | ⟨a, ha, hm⟩)
      · exact h1 ((localpart_matches_true_iff ca lp).mpr hc)
      · exact h2 (List.any_eq_true.mpr ⟨a, ha, (localpart_matches_true_iff a lp).mpr hm⟩)

/-- Witness for `claim3_no_rules_localpart`: a candidate sharing the
canonical alias' localpart on another domain is allowed. -/
theorem claim3_witness :
    is_allowed [] "!w3" ('#' :: 'x' :: ':' :: 'e' :: [])
      (CanonicalAliasStateEventContent.mk (some ('#' :: 'x' :: ':' :: 'd' :: [])) []) none
      = .ok true :=
  (claim3_no_rules_localpart [] "!w3" ('#' :: 'x' :: ':' :: 'e' :: [])
      (CanonicalAliasStateEventContent.mk (some ('#' :: 'x' :: ':' :: 'd' :: [])) [])
      ('#' :: 'x' :: ':' :: 'd' :: []) ['x'] none rfl rfl rfl).2.mpr (Or.inl rfl)

/-! ## Claim C4 -/

/-- Claim C4 (confirmed): for a room with a configured rule set,
`_is_allowed` (with the deadline not elapsing) returns `true` iff some
pattern in the stored sequence fully matches the alias; and the
evaluation short-circuits in stored order: once the first fully-matching
pattern is reached the result is `true`, the remaining patterns — and
any alarm scheduled beyond that point — are irrelevant. -/
theorem claim4_rules_fullmatch (rooms : List (String × RoomInfo)) (room_id : String)
    (al : List Char) (existing : CanonicalAliasStateEventContent) (cfg : RoomInfo)
    (hroom : dictGet rooms room_id = some cfg) :
    (is_allowed rooms room_id al existing none
        = .ok (cfg.formats.any (fun p => p.fullmatch al)))
    ∧ (is_allowed rooms room_id al existing none = .ok true ↔
        ∃ p ∈ cfg.formats, p.fullmatch al = true)
    ∧ (∀ l1 p l2 k, cfg.formats = l1 ++ p :: l2 →
        (∀ q ∈ l1, q.fullmatch al = false) → p.fullmatch al = true → l1.length < k →
        is_allowed rooms room_id al existing (some k) = .ok true) := by
  have hbase : ∀ fire, is_allowed rooms room_id al existing fire
      = evalFormats cfg.formats al fire := by
    intro fire
    rw [is_allowed]
    simp only [hroom]
  refine ⟨?_, ?_, ?_⟩
  · rw [hbase, evalFormats_no_fire]
  · rw [hbase, evalFormats_no_fire]
    simp only [Except.ok.injEq]
    exact List.any_eq_true
  · intro l1 p l2 k hsplit h1 hp hk
    rw [hbase, hsplit]
    exact evalFormats_first_match l1 l2 p al k h1 hp hk

/-- Witness for `claim4_rules_fullmatch`: one stored pattern that fully
matches the candidate, so the alias is allowed. -/
theorem claim4_witness :
    is_allowed [("!w4", RoomInfo.mk [RPattern.mk "t" (fun t => decide (t = ['#', 'm']))])]
      "!w4" ('#' :: 'm' :: []) (CanonicalAliasStateEventContent.mk none []) none
      = .ok true := by
  have h := (claim4_rules_fullmatch
    [("!w4", RoomInfo.mk [RPattern.mk "t" (fun t => decide (t = ['#', 'm']))])] "!w4"
    ('#' :: 'm' :: []) (CanonicalAliasStateEventContent.mk none [])
    (RoomInfo.mk [RPattern.mk "t" (fun t => decide (t = ['#', 'm']))]) rfl).1
  rw [h]
  rfl

/-! ## Claim C5 -/

/-- Claim C5 (confirmed): the wall-clock deadline passed to `timeout` in
`_is_allowed` — `max(len(cfg.formats) * 0.5, 2)` — is exactly the spec's
stated function of the pattern count n: a floor of 2 time-units together
with 0.5 time-units per pattern, i.e. `max 2 (n * 0.5)`; in particular
the deadline is never below 2, and from 4 patterns on it equals
`n * 0.5` exactly. -/
theorem claim5_deadline (cfg : RoomInfo) :
    timeoutArg cfg = specDeadline cfg.formats.length
    ∧ 2 ≤ timeoutArg cfg
    ∧ (4 ≤ cfg.formats.length → timeoutArg cfg = (cfg.formats.length : Rat) * (1 / 2)) := by
  refine ⟨?_, ?_, fun h => ?_⟩
  · rw [timeoutArg, specDeadline]
    exact max_comm _ _
  · rw [timeoutArg]
    exact le_max_right _ _
  · rw [timeoutArg]
    apply max_eq_left
    have h4 : (4 : Rat) ≤ (cfg.formats.length : Rat) := by exact_mod_cast h
    linarith

/-- Witness for `claim5_deadline`: with 4 configured patterns the
deadline equals 4 · 0.5 = 2. -/
theorem claim5_witness :
    timeoutArg (RoomInfo.mk [RPattern.mk "w" (fun _ => false), RPattern.mk "x" (fun _ => false),
        RPattern.mk "y" (fun _ => false), RPattern.mk "z" (fun _ => false)]) = 2 := by
  have h := (claim5_deadline (RoomInfo.mk [RPattern.mk "w" (fun _ => false),
    RPattern.mk "x" (fun _ => false), RPattern.mk "y" (fun _ => false),
    RPattern.mk "z" (fun _ => false)])).2.2 (by simp)
  rw [h]
  norm_num

theorem toyCompile_pattern (s : String) (p : RPattern) (h : toyCompile s = some p) :
    p.pattern = s := by
  rw [toyCompile] at h
  by_cases hb : s.data.count '(' = s.data.count ')'
  · rw [if_pos hb] at h
    injection h with h2
    rw [← h2]
  · rw [if_neg hb] at h
    exact Option.noConfusion h

theorem save_reload (compile : String → Option RPattern)
    (hc : ∀ s p, compile s = some p → p.pattern = s) (rs : List (String × List String)) :
    save_rooms (on_external_config_update compile rs)
      = rs.map (fun x => (x.1, x.2.filter (fun s => (compile s).isSome))) := by
  induction rs with
  | nil => rfl
  | cons x t ih =>
    simp only [on_external_config_update, save_rooms, List.map_cons] at *
    rw [loadFormats_map_pattern compile hc x.2]
    congr 1

/-! ## Claim C6 -/

/-- Claim C6 (confirmed): reloading configuration rebuilds each room's
rule set from exactly those pattern strings that compile, kept in their
original relative order (the invalid ones are dropped, after a logged
warning); and every pattern object stored after a reload is one that
compiled successfully (its source string recompiles to it). -/
theorem claim6_reload_valid_only (compile : String → Option RPattern)
    (hc : ∀ s p, compile s = some p → p.pattern = s)
    (cfgRooms : List (String × List String)) :
    (∀ x ∈ on_external_config_update compile cfgRooms, ∀ r ∈ x.2.formats,
        compile r.pattern = some r)
    ∧ save_rooms (on_external_config_update compile cfgRooms)
        = cfgRooms.map (fun x => (x.1, x.2.filter (fun s => (compile s).isSome))) := by
  constructor
  · intro x hx r hr
    rw [on_external_config_update] at hx
    rcases List.mem_map.mp hx with ⟨y, hy, hxy⟩
    rw [← hxy] at hr
    exact loadFormats_mem compile hc y.2 r hr
  · exact save_reload compile hc cfgRooms

/-- Witness for `claim6_reload_valid_only`: one room configured with a
bad pattern between two good ones keeps exactly the good ones in
order. -/
theorem claim6_witness :
    save_rooms (on_external_config_update toyCompile [("r6", ["a", "(", "b"])])
      = [("r6", ["a", "b"])] := by
  rw [(claim6_reload_valid_only toyCompile toyCompile_pattern [("r6", ["a", "(", "b"])]).2]
  rfl

/-! ## Claim C7 -/

/-- Claim C7 counterexample: submitting the invalid pattern "(" for a
room with no prior rules.  `allow_format` does not reply with a
user-facing rejection — `re.compile` raises and the `re.error` escapes
the handler — and the room map is NOT left unchanged: the empty rule-set
entry installed before the compile attempt (altalias.py lines 220-222)
remains, so the room now has a (deny-everything) configured rule set. -/
theorem claim7_counterexample :
    (allow_format toyCompile [] "r7" "(").result = .error PyErr.reError
    ∧ (allow_format toyCompile [] "r7" "(").rooms ≠ []
    ∧ (allow_format toyCompile [] "r7" "(").saved = none := by
  refine ⟨rfl, ?_, rfl⟩
  intro h
  have h2 : ([("r7", RoomInfo.mk [])] : List (String × RoomInfo)) = [] := h
  exact List.noConfusion h2

/-- Claim C7 (amended): for every invalid pattern string, `allow_format`
lets the `re.error` escape to the dispatcher (no reply), never appends
the pattern, and never saves; a room that already had a rule set keeps
it unchanged, but a room with no rule set gains a fresh empty one. -/
theorem claim7_invalid_pattern (compile : String → Option RPattern)
    (rooms : List (String × RoomInfo)) (room_id : String) (regex : String)
    (hbad : compile regex = none) :
    (allow_format compile rooms room_id regex).result = .error PyErr.reError
    ∧ (allow_format compile rooms room_id regex).saved = none
    ∧ (∀ info, dictGet rooms room_id = some info →
        (allow_format compile rooms room_id regex).rooms = rooms)
    ∧ (dictGet rooms room_id = none →
        dictGet (allow_format compile rooms room_id regex).rooms room_id
          = some (RoomInfo.mk [])) := by
  cases hg : dictGet rooms room_id with
  | some info =>
    have he : allow_format compile rooms room_id regex
        = AllowFormatResult.mk rooms none (.error .reError) := by
      rw [allow_format, hg, hbad]
    rw [he]
    exact ⟨rfl, rfl, fun _ _ => rfl, fun h => Option.noConfusion h⟩
  | none =>
    have he : allow_format compile rooms room_id regex
        = AllowFormatResult.mk (dictSet rooms room_id (RoomInfo.mk [])) none
            (.error .reError) := by
      rw [allow_format, hg, hbad]
    rw [he]
    exact ⟨rfl, rfl, fun _ h => Option.noConfusion h,
      fun _ => dictGet_dictSet_self rooms room_id (RoomInfo.mk [])⟩

/-- Witness for `claim7_invalid_pattern`: a room that already has an
(empty) rule set keeps it untouched by the failed operation. -/
theorem claim7_witness :
    (allow_format toyCompile [("q7", RoomInfo.mk [])] "q7" "(").rooms
      = [("q7", RoomInfo.mk [])] :=
  (claim7_invalid_pattern toyCompile [("q7", RoomInfo.mk [])] "q7" "(" rfl).2.2.1
    (RoomInfo.mk []) rfl

/-! ## Claim C8 -/

/-- Claim C8 (confirmed): serializing the room rule sets with
`save_rooms` and reloading with `on_external_config_update` yields, for
each room in order, exactly the serialized pattern strings that
recompile, in the same order; when every pattern string recompiles the
round trip reproduces the same pattern strings in the same order for
every room. -/
theorem claim8_round_trip (compile : String → Option RPattern)
    (hc : ∀ s p, compile s = some p → p.pattern = s)
    (rooms : List (String × RoomInfo)) :
    (save_rooms (on_external_config_update compile (save_rooms rooms))
        = rooms.map (fun x => (x.1, (x.2.formats.map (fun r => r.pattern)).filter
            (fun s => (compile s).isSome))))
    ∧ ((∀ x ∈ rooms, ∀ r ∈ x.2.formats, (compile r.pattern).isSome = true) →
        save_rooms (on_external_config_update compile (save_rooms rooms))
          = save_rooms rooms) := by
  have h1 := save_reload compile hc (save_rooms rooms)
  have h2 : save_rooms (on_external_config_update compile (save_rooms rooms))
      = rooms.map (fun x => (x.1, (x.2.formats.map (fun r => r.pattern)).filter
          (fun s => (compile s).isSome))) := by
    rw [h1, save_rooms, List.map_map]
    rfl
  refine ⟨h2, fun hall => ?_⟩
  rw [h2, save_rooms]
  refine List.map_congr_left (fun x hx => ?_)
  have hf : (x.2.formats.map (fun r => r.pattern)).filter (fun s => (compile s).isSome)
      = x.2.formats.map (fun r => r.pattern) := by
    rw [List.filter_eq_self]
    intro s hs
    rcases List.mem_map.mp hs with ⟨r, hr, hsr⟩
    rw [← hsr]
    exact hall x hx r hr
  rw [hf]

/-- Witness for `claim8_round_trip`: a one-room map whose single pattern
recompiles round-trips to the same serialized form. -/
theorem claim8_witness :
    save_rooms (on_external_config_update toyCompile (save_rooms
        [("r8", RoomInfo.mk [RPattern.mk "pq" (fun _ => false)])]))
      = save_rooms [("r8", RoomInfo.mk [RPattern.mk "pq" (fun _ => false)])] := by
  apply (claim8_round_trip toyCompile toyCompile_pattern
    [("r8", RoomInfo.mk [RPattern.mk "pq" (fun _ => false)])]).2
  intro x hx r hr
  rw [List.mem_singleton.mp hx] at hr
  rw [List.mem_singleton.mp hr]
  rfl

/-! ## Claim C9 -/

/-- Claim C9 (confirmed): the canonical-alias record sent by
`_publish_aliases` is the existing record with the candidate appended at
the end of the alternate-alias sequence: the canonical alias is
unchanged, every previously existing alternate alias is kept in its
original position, and the candidate is the last entry; nothing else of
the record is touched. -/
theorem claim9_publish_append (al : List Char) (content : CanonicalAliasStateEventContent) :
    (publish_aliases al content).canonical_alias = content.canonical_alias
    ∧ (publish_aliases al content).alt_aliases = content.alt_aliases ++ [al]
    ∧ (publish_aliases al content).alt_aliases.take content.alt_aliases.length
        = content.alt_aliases
    ∧ (publish_aliases al content).alt_aliases.getLast? = some al := by
  refine ⟨rfl, rfl, ?_, ?_⟩
  · exact List.take_left _ _
  · exact List.getLast?_concat _

/-! ## Claim C10 -/

/-- Claim C10 (confirmed): when the validated candidate already appears
in the room's existing alternate aliases, `add_alias` replies with the
duplicate message and stops: no state event is sent, and the allow/deny
decision is never consulted — the outcome is identical for every room
rule configuration and every alarm behaviour, including configurations
under which `_is_allowed` would raise. -/
theorem claim10_duplicate_refused (rooms : List (String × RoomInfo)) (room_id : String)
    (al : List Char) (content : CanonicalAliasStateEventContent) (fire : Option Nat)
    (hdup : al ∈ content.alt_aliases) :
    add_alias rooms room_id al true (some content) fire
      = .ok (AddAliasOutcome.mk (some Reply.duplicate) none) := by
  rw [add_alias, if_neg (by simp)]
  exact if_pos hdup

/-- Witness for `claim10_duplicate_refused`: the duplicate reply is
produced even for a room whose rule evaluation would time out — the
decision procedure is never reached. -/
theorem claim10_witness :
    add_alias [("!w10", RoomInfo.mk [RPattern.mk "e" (fun _ => false)])] "!w10"
      ('#' :: 'a' :: ':' :: 'b' :: []) true
      (some (CanonicalAliasStateEventContent.mk none [('#' :: 'a' :: ':' :: 'b' :: [])]))
      (some 0)
      = .ok (AddAliasOutcome.mk (some Reply.duplicate) none) :=
  claim10_duplicate_refused [("!w10", RoomInfo.mk [RPattern.mk "e" (fun _ => false)])]
    "!w10" ('#' :: 'a' :: ':' :: 'b' :: [])
    (CanonicalAliasStateEventContent.mk none [('#' :: 'a' :: ':' :: 'b' :: [])]) (some 0)
    (List.mem_singleton.mpr rfl)

